import Mathlib

/-!
Verification of the upload orchestration core of `feishu_uploader.py`.

The Python source is shallowly embedded below.  External effects (the local
filesystem, the Feishu authentication endpoint, the folder list/create
endpoints and the upload endpoint) are modelled by an `Env` record of pure
response functions; a run of the orchestrator is then a pure function of the
environment, the candidate file list and the initial history.  Remote calls
and upload attempts are logged explicitly so that frame conditions ("no
network I/O", "no history mutation") become provable equations.
-/

namespace Feishu

/-- Association-list lookup, mirroring Python `dict.get`. -/
def aget {α β : Type} [DecidableEq α] : List (α × β) → α → Option β
  | [], _ => none
  | (k', v) :: rest, k => if k' = k then some v else aget rest k

/-- Association-list update, mirroring Python `dict[k] = v`. -/
def aset {α β : Type} [DecidableEq α] : List (α × β) → α → β → List (α × β)
  | [], k, v => [(k, v)]
  | (k', v') :: rest, k, v => if k' = k then (k, v) :: rest else (k', v') :: aset rest k v

/-- In-memory history (`self.history`): logical path → last uploaded digest. -/
abbrev History := List (String × String)

/-- Folder token cache (`self.folder_cache`): `(parent_token, name)` → token. -/
abbrev Cache := List ((String × String) × String)

/-- One entry of `files_to_upload` (the dicts built by `get_files_to_upload`). -/
structure FileInfo where
  local_path : String
  feishu_dir : String
  file_name : String
  logical_path : String
deriving DecidableEq, Repr

/-- Outcome of the list-children call in `_get_or_create_single_folder`:
either a folder with the requested exact name is found, or not (`absent`
covers a success response without a match, a non-success response and a
raised-and-caught exception: all three fall through to creation). -/
inductive ListResult
  | found (tok : String)
  | absent
deriving DecidableEq, Repr

/-- Outcome of the create-folder call: a token on success; `failed` covers a
non-success response code and a raised-and-caught exception (both make
`_get_or_create_single_folder` return `""`). -/
inductive CreateResult
  | created (tok : String)
  | failed
deriving DecidableEq, Repr

/-- A remote drive API call performed during folder resolution. -/
inductive RemoteCall
  | listCall (parent name : String)
  | createCall (parent name : String)
deriving DecidableEq, Repr

/-- The fixed external world of one run: `parent_node` configuration,
`calculate_hash` (SHA-256 of the file bytes at a local path),
`auth_result` (`some token` if the token exchange returns success,
`none` if `_refresh_token` raises), the folder list/create endpoints and
the upload endpoint (`true` iff the response code is 0 and no exception
occurred). -/
structure Env where
  parent_node : String
  calculate_hash : String → String
  auth_result : Option String
  list_folder : String → String → ListResult
  create_folder : String → String → CreateResult
  upload_resp : String → String → String → Bool

/-- `_get_token`: returns the tenant access token, or raises (`none`) when
the token exchange failed.  The expiry bookkeeping always refreshes on the
first call, so a failing exchange fails every call. -/
def get_token (env : Env) : Option String := env.auth_result

/-- `upload_file` (lines 389-433): the whole body is wrapped in
`try/except`, so a raised token refresh is caught and yields `False`,
exactly like a non-zero response code. -/
def upload_file (env : Env) (file_path file_name target_node : String) : Bool :=
  match get_token env with
  | none => false
  | some _ => env.upload_resp file_path file_name target_node

/-- `_get_or_create_single_folder` (lines 246-290): cache lookup, then list,
then create; returns the token together with the updated cache and the log
of remote calls made.  A failure returns `""` and caches nothing. -/
def get_or_create_single_folder (env : Env) (cache : Cache) (name parent_token : String) :
    String × Cache × List RemoteCall :=
  match aget cache (parent_token, name) with
  | some tok => (tok, cache, [])
  | none =>
    match env.list_folder parent_token name with
    | .found tok =>
        (tok, aset cache (parent_token, name) tok, [.listCall parent_token name])
    | .absent =>
        match env.create_folder parent_token name with
        | .created tok =>
            (tok, aset cache (parent_token, name) tok,
              [.listCall parent_token name, .createCall parent_token name])
        | .failed =>
            ("", cache, [.listCall parent_token name, .createCall parent_token name])

/-- The segment loop of `ensure_path_exists`: empty segments are skipped;
a segment resolving to `""` raises (modelled as `none`), keeping the cache
mutations made so far. -/
def ensure_go (env : Env) : List String → String → Cache → Option String × Cache × List RemoteCall
  | [], parent, cache => (some parent, cache, [])
  | part :: rest, parent, cache =>
    if part = "" then ensure_go env rest parent cache
    else
      let r1 := get_or_create_single_folder env cache part parent
      if r1.1 = "" then (none, r1.2.1, r1.2.2)
      else
        let r2 := ensure_go env rest r1.1 r1.2.1
        (r2.1, r2.2.1, r1.2.2 ++ r2.2.2)

/-- Character-level splitting used to embed Python `str.split("/")`:
splitting produces the (possibly empty) runs between `/` separators, with
`""` splitting to `[""]`. -/
def split_chars : List Char → List (List Char)
  | [] => [[]]
  | c :: rest =>
    match split_chars rest with
    | [] => [[c]]
    | g :: gs => if c = '/' then [] :: g :: gs else (c :: g) :: gs

/-- `relative_path.split("/")` of the Python source. -/
def split_slash (s : String) : List String :=
  (split_chars s.data).map String.mk

/-- `ensure_path_exists` (lines 228-244): empty path returns the configured
root `parent_node` unchanged; otherwise split on `/` and resolve each
segment. -/
def ensure_path_exists (env : Env) (parent_node : String) (cache : Cache)
    (relative_path : String) : Option String × Cache × List RemoteCall :=
  if relative_path = "" then (some parent_node, cache, [])
  else ensure_go env (split_slash relative_path) parent_node cache

/-- Mutable state threaded through the serial loop of `upload_all`
(lines 489-531): the history and folder cache of the uploader object, the
three result accumulators, and explicit logs of upload attempts (each call
of `upload_file`, with its arguments) and of remote folder API calls. -/
structure RunState where
  history : History
  cache : Cache
  success_count : Nat
  failed_count : Nat
  failed_files : List FileInfo
  uploads : List (String × String × String)
  remote_calls : List RemoteCall
deriving DecidableEq, Repr

/-- The fresh accumulator state at the top of the upload loop. -/
def init_state (h0 : History) : RunState :=
  ⟨h0, [], 0, 0, [], [], []⟩

/-- The body of the serial upload loop (lines 500-531): compute the hash,
skip when unchanged and not forced, otherwise resolve the target folder
(a `""` segment result raises, caught as a task failure) and upload;
history is updated only after a successful upload. -/
def process_one (env : Env) (force : Bool) (st : RunState) (info : FileInfo) : RunState :=
  let current_hash := env.calculate_hash info.local_path
  if force = false ∧ aget st.history info.logical_path = some current_hash then
    { st with success_count := st.success_count + 1 }
  else
    match ensure_path_exists env env.parent_node st.cache info.feishu_dir with
    | (none, cache', calls) =>
        { st with
            cache := cache',
            remote_calls := st.remote_calls ++ calls,
            failed_count := st.failed_count + 1,
            failed_files := st.failed_files ++ [info] }
    | (some tok, cache', calls) =>
        if upload_file env info.local_path info.file_name tok then
          { st with
              cache := cache',
              remote_calls := st.remote_calls ++ calls,
              uploads := st.uploads ++ [(info.local_path, info.file_name, tok)],
              success_count := st.success_count + 1,
              history := aset st.history info.logical_path current_hash }
        else
          { st with
              cache := cache',
              remote_calls := st.remote_calls ++ calls,
              uploads := st.uploads ++ [(info.local_path, info.file_name, tok)],
              failed_count := st.failed_count + 1,
              failed_files := st.failed_files ++ [info] }

/-- Result of one whole run: the returned triple, the final uploader state,
the effect logs, whether `save_history` was executed, whether the
discovery/scanning phase ran, and the task list the transfer phase was
given. -/
structure UploadResult where
  success_count : Nat
  failed_count : Nat
  failed_files : List FileInfo
  history : History
  cache : Cache
  uploads : List (String × String × String)
  remote_calls : List RemoteCall
  saved_history : Bool
  scanned : Bool
  tasks : List FileInfo
deriving DecidableEq, Repr

/-- Python truthiness of the `files_override` argument: `None` and the
empty list both fail `if files_override:`. -/
def truthy_override : Option (List FileInfo) → Option (List FileInfo)
  | some (a :: l) => some (a :: l)
  | _ => none

/-- The tail of `upload_all` after the task list is settled: the dry-run
short-circuit (lines 478-486), the serial loop, and the final
`save_history` (line 535). -/
def upload_all_core (env : Env) (files : List FileInfo) (dry_run force : Bool)
    (h0 : History) (scanned_flag : Bool) : UploadResult :=
  if dry_run then
    ⟨files.length, 0, [], h0, [], [], [], false, scanned_flag, files⟩
  else
    let st := files.foldl (process_one env force) (init_state h0)
    ⟨st.success_count, st.failed_count, st.failed_files, st.history, st.cache,
      st.uploads, st.remote_calls, true, scanned_flag, files⟩

/-- `upload_all` (lines 435-537), the serial pipeline.  `scanned_files`
stands for the file list discovery would produce; the early returns for a
missing root, no publish folder and no candidate files are collapsed into
the empty-scan case (all return `(0, 0, [])` before any transfer or save).
The external stop signal is modelled as never set. -/
def upload_all (env : Env) (scanned_files : List FileInfo) (dry_run force : Bool)
    (files_override : Option (List FileInfo)) (h0 : History) : UploadResult :=
  match truthy_override files_override with
  | some files => upload_all_core env files dry_run force h0 false
  | none =>
      if scanned_files.isEmpty then
        ⟨0, 0, [], h0, [], [], [], false, true, []⟩
      else upload_all_core env scanned_files dry_run force h0 true

/-- Result of one phase-2 worker (`upload_single_file`, lines 611-645):
success flag, the uploader state after its (lock-serialised) mutations,
and its effect logs. -/
structure WorkerResult where
  ok : Bool
  history : History
  cache : Cache
  uploads : List (String × String × String)
  remote_calls : List RemoteCall
deriving DecidableEq, Repr

/-- `upload_single_file` (lines 611-645): the worker first re-checks the
stop signal (`stopped` is the value `is_stopped()` returned at that check)
and does nothing when it is set; otherwise it hashes, skips unchanged
files, resolves the target folder and performs the rate-limited upload,
updating the history under the lock only on success. -/
def upload_single_file (env : Env) (force stopped : Bool) (hist : History)
    (cache : Cache) (info : FileInfo) : WorkerResult :=
  if stopped then ⟨false, hist, cache, [], []⟩
  else
    let current_hash := env.calculate_hash info.local_path
    if force = false ∧ aget hist info.logical_path = some current_hash then
      ⟨true, hist, cache, [], []⟩
    else
      match ensure_path_exists env env.parent_node cache info.feishu_dir with
      | (none, cache', calls) => ⟨false, hist, cache', [], calls⟩
      | (some tok, cache', calls) =>
          if upload_file env info.local_path info.file_name tok then
            ⟨true, aset hist info.logical_path current_hash, cache',
              [(info.local_path, info.file_name, tok)], calls⟩
          else
            ⟨false, hist, cache', [(info.local_path, info.file_name, tok)], calls⟩

/-- Accumulated outcome of all phase-2 workers.  The workers of the pool
are serialised in submission order (one admissible schedule; all state
they share is guarded by locks in the source), with `stop_w i` the stop
flag observed by the worker of the `i`-th task. -/
structure WorkersResult where
  results : List (FileInfo × Bool)
  history : History
  cache : Cache
  uploads : List (String × String × String)
  remote_calls : List RemoteCall
deriving DecidableEq, Repr

/-- Run every submitted worker in order, threading history and cache. -/
def run_workers (env : Env) (force : Bool) (stop_w : Nat → Bool) :
    List FileInfo → Nat → History → Cache → WorkersResult
  | [], _, hist, cache => ⟨[], hist, cache, [], []⟩
  | info :: rest, i, hist, cache =>
      let w := upload_single_file env force (stop_w i) hist cache info
      let r := run_workers env force stop_w rest (i + 1) w.history w.cache
      ⟨(info, w.ok) :: r.results, r.history, r.cache,
        w.uploads ++ r.uploads, w.remote_calls ++ r.remote_calls⟩

/-- Aggregated counts, mirroring `success_count`, `failed_count`,
`failed_files` of the collection loop. -/
structure AggResult where
  success_count : Nat
  failed_count : Nat
  failed_files : List FileInfo
deriving DecidableEq, Repr

/-- The result-collection loop over completed futures (lines 656-676),
1-indexed like `enumerate(..., 1)`: before recording outcome `i` it checks
the stop signal (`stop_a i`) and `break`s when it is set, discarding every
outcome not yet recorded.  Completion order is modelled as submission
order (one admissible schedule of `as_completed`). -/
def run_agg (stop_a : Nat → Bool) : List (FileInfo × Bool) → Nat → AggResult → AggResult
  | [], _, acc => acc
  | (info, ok) :: rest, i, acc =>
      if stop_a i then acc
      else
        run_agg stop_a rest (i + 1)
          (if ok then ⟨acc.success_count + 1, acc.failed_count, acc.failed_files⟩
           else ⟨acc.success_count, acc.failed_count + 1, acc.failed_files ++ [info]⟩)

/-- `set(...)` iteration over the pending directories, modelled as
first-occurrence deduplication. -/
def dedup_aux : List String → List String → List String
  | [], _ => []
  | a :: rest, seen =>
      if seen.contains a then dedup_aux rest seen
      else a :: dedup_aux rest (a :: seen)

/-- The distinct `feishu_dir` values of the task list. -/
def dedup (l : List String) : List String := dedup_aux l []

/-- Phase 1 of `upload_all_concurrent` (lines 587-600): serially resolve
every distinct target directory, accumulating cache updates and remote
calls; a raised resolution error is caught and logged. -/
def phase1 (env : Env) (dirs : List String) (cache : Cache) : Cache × List RemoteCall :=
  dirs.foldl
    (fun acc d =>
      let r := ensure_path_exists env env.parent_node acc.1 d
      (r.2.1, acc.2 ++ r.2.2))
    (cache, [])

/-- Phases 1 and 2 of `upload_all_concurrent` followed by the
unconditional `save_history` (line 679), for a run during which the stop
signal is never set. -/
def conc_core (env : Env) (files : List FileInfo) (force : Bool) (h0 : History)
    (scanned_flag : Bool) : UploadResult :=
  let p1 := phase1 env (dedup (files.map (fun f => f.feishu_dir))) []
  let w := run_workers env force (fun _ => false) files 0 h0 p1.1
  let agg := run_agg (fun _ => false) w.results 1 ⟨0, 0, []⟩
  ⟨agg.success_count, agg.failed_count, agg.failed_files, w.history, w.cache,
    w.uploads, p1.2 ++ w.remote_calls, true, scanned_flag, files⟩

/-- `upload_all_concurrent` (lines 539-681).  Note the structure of the
source: the dry-run short-circuit (lines 577-585) sits inside the `else`
branch of `if files_override:`, so it is reachable only when the task list
comes from scanning; with a truthy override the phases run regardless of
`dry_run`.  The stop signal is modelled as never set. -/
def upload_all_concurrent (env : Env) (scanned_files : List FileInfo)
    (dry_run force : Bool) (files_override : Option (List FileInfo))
    (h0 : History) : UploadResult :=
  match truthy_override files_override with
  | some files => conc_core env files force h0 false
  | none =>
      if dry_run then
        ⟨scanned_files.length, 0, [], h0, [], [], [], false, true, scanned_files⟩
      else conc_core env scanned_files force h0 true

/-- What `main` does to `failed_uploads.json` after the run
(lines 760-788): nothing at all under `--dry-run`; otherwise the manifest
is written with exactly the failed tasks when there are failures, and
removed (if present) when there are none. -/
inductive ManifestAction
  | untouched
  | written (entries : List FileInfo)
  | removed
deriving DecidableEq, Repr

/-- The run outcome together with the manifest-file effect. -/
structure MainResult where
  run : UploadResult
  manifest_action : ManifestAction
deriving DecidableEq, Repr

/-- The post-run reporting / manifest block of `main` (lines 760-789). -/
def finish_run (dry_run : Bool) (r : UploadResult) : MainResult :=
  ⟨r, if dry_run then .untouched
      else if 0 < r.failed_count then .written r.failed_files
      else .removed⟩

/-- `main` (lines 684-789) after configuration checks: in `--retry` mode a
missing manifest file exits (modelled `none`); otherwise the manifest
entries are passed as `files_override` and the serial or concurrent
pipeline runs, followed by the manifest block. -/
def main_run (env : Env) (scanned_files : List FileInfo)
    (dry_run force concurrent retry : Bool)
    (manifest_file : Option (List FileInfo)) (h0 : History) : Option MainResult :=
  if retry then
    match manifest_file with
    | none => none
    | some files =>
        let r := if concurrent then
            upload_all_concurrent env scanned_files dry_run force (some files) h0
          else upload_all env scanned_files dry_run force (some files) h0
        some (finish_run dry_run r)
  else
    let r := if concurrent then
        upload_all_concurrent env scanned_files dry_run force none h0
      else upload_all env scanned_files dry_run force none h0
    some (finish_run dry_run r)

/-- `RateLimiter` (lines 23-49).  Call instants are totally ordered time
values, modelled as integers (e.g. clock ticks); the limiter uses only
comparison, addition and subtraction of times, which the embedding
preserves.  `rl_prune` is the list comprehension dropping records older
than the window. -/
def rl_prune (period : ℤ) (calls : List ℤ) (now : ℤ) : List ℤ :=
  calls.filter (fun c => now - period < c)

/-- The clock value after the `time.sleep(sleep_time)` of the saturated
branch: `sleep_time = period - (now - calls[0])` is slept only when
positive. -/
def rl_wait_time (period : ℤ) (calls : List ℤ) (now : ℤ) : ℤ :=
  if 0 < period - (now - (rl_prune period calls now).headD 0) then
    now + (period - (now - (rl_prune period calls now).headD 0))
  else now

/-- One admission of the limiter, which the source runs under `self.lock`
(so concurrent callers are serialised): prune the window; when the bound
is reached, sleep until the oldest recorded call leaves the window and
`pop(0)` it; finally append the admission instant.  Returns the new
record list and the admission instant (`time.time()` after the optional
sleep). -/
def rl_acquire (max_calls : Nat) (period : ℤ) (calls : List ℤ) (now : ℤ) :
    List ℤ × ℤ :=
  if max_calls ≤ (rl_prune period calls now).length then
    ((rl_prune period calls now).tail ++ [rl_wait_time period calls now],
      rl_wait_time period calls now)
  else
    (rl_prune period calls now ++ [now], now)

/-- A whole sequence of admissions: `nows` are the instants at which the
successive (serialised) callers enter the limiter. -/
def rl_run (max_calls : Nat) (period : ℤ) : List ℤ → List ℤ → List ℤ
  | [], calls => calls
  | now :: rest, calls => rl_run max_calls period rest (rl_acquire max_calls period calls now).1

/-! Concrete fixtures used to evaluate the definitions on closed inputs. -/

/-- A healthy remote: token exchange succeeds, every folder list finds a
deterministic token, creation succeeds, uploads succeed.  File contents
hash to `"h2"`. -/
def env_ok : Env :=
  ⟨"root", fun _ => "h2", some "tok0",
    fun p n => .found ("f_" ++ p ++ "_" ++ n), fun _ _ => .created "c0",
    fun _ _ _ => true⟩

/-- Same remote but the token exchange returns a non-success response, so
`_refresh_token` raises on every call. -/
def env_auth_fail : Env :=
  ⟨"root", fun _ => "h2", none,
    fun p n => .found ("f_" ++ p ++ "_" ++ n), fun _ _ => .created "c0",
    fun _ _ _ => true⟩

/-- Healthy auth and folders, but the upload endpoint always answers a
non-zero code. -/
def env_upload_fail : Env :=
  ⟨"root", fun _ => "h2", some "tok0",
    fun p n => .found ("f_" ++ p ++ "_" ++ n), fun _ _ => .created "c0",
    fun _ _ _ => false⟩

/-- Folder resolution is broken: listing finds nothing and creation fails. -/
def env_folder_fail : Env :=
  ⟨"root", fun _ => "h2", some "tok0", fun _ _ => .absent, fun _ _ => .failed,
    fun _ _ _ => true⟩

/-- Healthy remote whose files hash to `"d1"`, matching a pre-seeded
history entry. -/
def env_match : Env :=
  ⟨"root", fun _ => "d1", some "tok0",
    fun p n => .found ("f_" ++ p ++ "_" ++ n), fun _ _ => .created "c0",
    fun _ _ _ => true⟩

/-- The file of the spec scenarios. -/
def info_x : FileInfo :=
  ⟨"/pub/A/00_Publish/x.docx", "A/00_Publish", "x.docx", "A/00_Publish/x.docx"⟩

/-- A sibling task in a second project directory. -/
def info_y : FileInfo :=
  ⟨"/pub/B/00_Publish/y.docx", "B/00_Publish", "y.docx", "B/00_Publish/y.docx"⟩

/-- History that already records `info_x` at digest `d1`. -/
def hist_d1 : History := [("A/00_Publish/x.docx", "d1")]

/-- A stop signal that is never set. -/
def stop_never : Nat → Bool := fun _ => false

/-- A stop signal that is already set (and, being a single latched event,
stays set). -/
def stop_always : Nat → Bool := fun _ => true

/-- Placeholder result used only to destructure `Option MainResult` on
closed inputs. -/
def main_default : MainResult :=
  ⟨⟨0, 0, [], [], [], [], [], false, false, []⟩, .untouched⟩

/-- The concrete `MainResult` of a serial retry run of `[info_x]` against
the healthy remote. -/
def m_w : MainResult :=
  (main_run env_ok [] false false false true (some [info_x]) []).getD main_default

/-! Helper lemmas. -/

lemma aget_aset_self {α β : Type} [DecidableEq α] (l : List (α × β)) (k : α) (v : β) :
    aget (aset l k v) k = some v := by
  induction l with
  | nil => simp [aset, aget]
  | cons p rest ih =>
      obtain ⟨a, b⟩ := p
      by_cases h : a = k
      · subst h
        simp [aset, aget]
      · simp [aset, aget, h, ih]

lemma aget_aset_ne {α β : Type} [DecidableEq α] (l : List (α × β)) (k k' : α) (v : β)
    (h : k' ≠ k) : aget (aset l k v) k' = aget l k' := by
  induction l with
  | nil => simp [aset, aget, Ne.symm h]
  | cons p rest ih =>
      obtain ⟨a, b⟩ := p
      by_cases ha : a = k
      · subst ha
        simp [aset, aget, Ne.symm h]
      · simp [aset, aget, ha, ih]

lemma rl_acquire_length (max_calls : Nat) (period : ℤ) (calls : List ℤ) (now : ℤ)
    (hmax : 1 ≤ max_calls) (hlen : calls.length ≤ max_calls) :
    (rl_acquire max_calls period calls now).1.length ≤ max_calls := by
  have hp : (rl_prune period calls now).length ≤ calls.length :=
    List.length_filter_le _ _
  rw [rl_acquire]
  split_ifs with hge
  · simp only [List.length_append, List.length_tail, List.length_cons,
      List.length_nil]
    omega
  · simp only [List.length_append, List.length_cons, List.length_nil]
    omega

lemma rl_run_length (max_calls : Nat) (period : ℤ) (hmax : 1 ≤ max_calls) :
    ∀ (nows calls : List ℤ), calls.length ≤ max_calls →
      (rl_run max_calls period nows calls).length ≤ max_calls
  | [], _, h => by simpa [rl_run] using h
  | _ :: rest, calls, h => by
      rw [rl_run]
      exact rl_run_length max_calls period hmax rest _
        (rl_acquire_length max_calls period calls _ hmax h)

lemma process_one_fail_history (env : Env) (force : Bool) (st : RunState)
    (info : FileInfo) :
    (process_one env force st info).failed_count ≠ st.failed_count →
    (process_one env force st info).history = st.history := by
  intro h
  by_cases hskip : force = false ∧
      aget st.history info.logical_path = some (env.calculate_hash info.local_path)
  · simp [process_one, hskip] at h
  · rcases hE : ensure_path_exists env env.parent_node st.cache info.feishu_dir
      with ⟨tk, cache', calls⟩
    cases tk with
    | none => simp [process_one, hskip, hE]
    | some tok =>
        by_cases hup : upload_file env info.local_path info.file_name tok
        · simp [process_one, hskip, hE, hup] at h
        · simp [process_one, hskip, hE, hup]

lemma process_one_history_change (env : Env) (force : Bool) (st : RunState)
    (info : FileInfo) :
    (process_one env force st info).history ≠ st.history →
    (process_one env force st info).success_count = st.success_count + 1 ∧
    (process_one env force st info).history
      = aset st.history info.logical_path (env.calculate_hash info.local_path) := by
  intro h
  by_cases hskip : force = false ∧
      aget st.history info.logical_path = some (env.calculate_hash info.local_path)
  · simp [process_one, hskip] at h
  · rcases hE : ensure_path_exists env env.parent_node st.cache info.feishu_dir
      with ⟨tk, cache', calls⟩
    cases tk with
    | none => simp [process_one, hskip, hE] at h
    | some tok =>
        by_cases hup : upload_file env info.local_path info.file_name tok
        · simp [process_one, hskip, hE, hup]
        · simp [process_one, hskip, hE, hup] at h

lemma upload_single_file_fail_history (env : Env) (force stopped : Bool)
    (hist : History) (cache : Cache) (info : FileInfo) :
    (upload_single_file env force stopped hist cache info).ok = false →
    (upload_single_file env force stopped hist cache info).history = hist := by
  intro h
  cases stopped with
  | true => simp [upload_single_file]
  | false =>
      by_cases hskip : force = false ∧
          aget hist info.logical_path = some (env.calculate_hash info.local_path)
      · simp [upload_single_file, hskip]
      · rcases hE : ensure_path_exists env env.parent_node cache info.feishu_dir
          with ⟨tk, cache', calls⟩
        cases tk with
        | none => simp [upload_single_file, hskip, hE]
        | some tok =>
            by_cases hup : upload_file env info.local_path info.file_name tok
            · simp [upload_single_file, hskip, hE, hup] at h
            · simp [upload_single_file, hskip, hE, hup]

lemma upload_single_file_history_change (env : Env) (force stopped : Bool)
    (hist : History) (cache : Cache) (info : FileInfo) :
    (upload_single_file env force stopped hist cache info).history ≠ hist →
    (upload_single_file env force stopped hist cache info).ok = true ∧
    (upload_single_file env force stopped hist cache info).history
      = aset hist info.logical_path (env.calculate_hash info.local_path) := by
  intro h
  cases stopped with
  | true => simp [upload_single_file] at h
  | false =>
      by_cases hskip : force = false ∧
          aget hist info.logical_path = some (env.calculate_hash info.local_path)
      · simp [upload_single_file, hskip] at h
      · rcases hE : ensure_path_exists env env.parent_node cache info.feishu_dir
          with ⟨tk, cache', calls⟩
        cases tk with
        | none => simp [upload_single_file, hskip, hE] at h
        | some tok =>
            by_cases hup : upload_file env info.local_path info.file_name tok
            · simp [upload_single_file, hskip, hE, hup]
            · simp [upload_single_file, hskip, hE, hup] at h

/-! Claim theorems. -/

/-- C5: the rate limiter, whose body runs entirely under its lock (so any
interleaving of concurrent callers is a sequence of `rl_acquire` steps),
never holds more than `max_calls` admission records: starting from the
empty record list, after any sequence of admissions the record list — and
in particular its sub-window of entries within the last `period` of the
admission instant — has length at most `max_calls`; every call is
admitted (an admission record is always appended, never dropped or
rejected), and a call finding the window full is admitted no earlier than
the instant the oldest recorded admission leaves the window. -/
theorem C5_rate_limiter (max_calls : Nat) (period : ℤ) (calls : List ℤ)
    (now : ℤ) (nows : List ℤ) (hmax : 1 ≤ max_calls)
    (hlen : calls.length ≤ max_calls) :
    (rl_run max_calls period nows []).length ≤ max_calls ∧
    (rl_acquire max_calls period calls now).1.length ≤ max_calls ∧
    ((rl_acquire max_calls period calls now).1.filter
        (fun c => (rl_acquire max_calls period calls now).2 - period < c)).length
      ≤ max_calls ∧
    (∃ pre, (rl_acquire max_calls period calls now).1
        = pre ++ [(rl_acquire max_calls period calls now).2]) ∧
    (max_calls ≤ (rl_prune period calls now).length →
      (rl_prune period calls now).headD 0 + period
        ≤ (rl_acquire max_calls period calls now).2) := by
  have hacq := rl_acquire_length max_calls period calls now hmax hlen
  refine ⟨rl_run_length max_calls period hmax nows [] (by simp), hacq,
    le_trans (List.length_filter_le _ _) hacq, ?_, ?_⟩
  · rw [rl_acquire]
    split_ifs with hge
    · exact ⟨_, rfl⟩
    · exact ⟨_, rfl⟩
  · intro hge
    rw [rl_acquire, if_pos hge, rl_wait_time]
    split_ifs with hs
    · omega
    · omega

/-- Witness for C5: the source defaults `max_calls = 5` with a burst of
eight callers; the bound holds and the concrete admission instants match
hand evaluation (three immediate, then blocking until instants 10, 11,
12). -/
theorem C5_rate_limiter_witness :
    (rl_run 5 10 [0, 1, 2, 3, 4, 5, 6, 7] []).length ≤ 5 ∧
    rl_run 5 10 [0, 1, 2, 3, 4, 5, 6, 7] [] = [3, 4, 10, 11, 12] :=
  ⟨(C5_rate_limiter 5 10 [] 0 [0, 1, 2, 3, 4, 5, 6, 7] (by decide) (by decide)).1,
    by decide⟩

/-- C1: in both the serial loop body and the concurrent worker, the
history entry of a task's logical key is written only when the task's
transfer succeeds, and it is then set to the fingerprint computed from
the file's bytes; when the task fails (or an exception is caught), the
whole history — in particular that key's entry — is unchanged, so after a
failed re-transfer of a file recorded at digest `d1` the key still maps
to `d1`. -/
theorem C1_history_written_only_on_success (env : Env) (force : Bool)
    (st : RunState) (info : FileInfo) (hist : History) (cache : Cache)
    (stopped : Bool) :
    ((process_one env force st info).failed_count ≠ st.failed_count →
      (process_one env force st info).history = st.history) ∧
    ((process_one env force st info).history ≠ st.history →
      (process_one env force st info).success_count = st.success_count + 1 ∧
      (process_one env force st info).history
        = aset st.history info.logical_path (env.calculate_hash info.local_path)) ∧
    ((upload_single_file env force stopped hist cache info).ok = false →
      (upload_single_file env force stopped hist cache info).history = hist) ∧
    ((upload_single_file env force stopped hist cache info).history ≠ hist →
      (upload_single_file env force stopped hist cache info).ok = true ∧
      (upload_single_file env force stopped hist cache info).history
        = aset hist info.logical_path (env.calculate_hash info.local_path)) ∧
    (∀ d1, aget st.history info.logical_path = some d1 →
      (process_one env force st info).failed_count = st.failed_count + 1 →
      aget (process_one env force st info).history info.logical_path = some d1) := by
  refine ⟨process_one_fail_history env force st info,
    process_one_history_change env force st info,
    upload_single_file_fail_history env force stopped hist cache info,
    upload_single_file_history_change env force stopped hist cache info,
    ?_⟩
  intro d1 hd hf
  rw [process_one_fail_history env force st info (by omega)]
  exact hd

/-- Witness for C1: a failing upload of `info_x` (previously recorded at
`d1`, now hashing to `h2`) leaves the history unchanged at `d1`. -/
theorem C1_history_written_only_on_success_witness :
    aget (process_one env_upload_fail false (init_state hist_d1) info_x).history
      info_x.logical_path = some "d1" :=
  (C1_history_written_only_on_success env_upload_fail false (init_state hist_d1)
      info_x [] [] false).2.2.2.2 "d1" (by decide) (by decide)

/-- C2: with `force = False`, a candidate whose stored history digest
equals the freshly computed fingerprint is skipped — counted as a success
with no transfer attempted and no state change — in both the serial loop
and the concurrent worker; otherwise (digest mismatch, or `force = True`)
the task proceeds and, whenever its target folder resolves, a transfer is
attempted.  Consequently a run over one file whose digest already matches
its history entry performs 0 transfers and returns `success = 1`,
`failure = 0`. -/
theorem C2_unchanged_files_skipped (env : Env) (st : RunState) (info : FileInfo)
    (hist : History) (cache : Cache) (h0 : History) :
    (aget st.history info.logical_path = some (env.calculate_hash info.local_path) →
      process_one env false st info = { st with success_count := st.success_count + 1 }) ∧
    (aget hist info.logical_path = some (env.calculate_hash info.local_path) →
      upload_single_file env false false hist cache info = ⟨true, hist, cache, [], []⟩) ∧
    (∀ tok cache' calls,
      ¬ aget st.history info.logical_path = some (env.calculate_hash info.local_path) →
      ensure_path_exists env env.parent_node st.cache info.feishu_dir
        = (some tok, cache', calls) →
      (process_one env false st info).uploads
        = st.uploads ++ [(info.local_path, info.file_name, tok)]) ∧
    (∀ tok cache' calls,
      ensure_path_exists env env.parent_node st.cache info.feishu_dir
        = (some tok, cache', calls) →
      (process_one env true st info).uploads
        = st.uploads ++ [(info.local_path, info.file_name, tok)]) ∧
    (aget h0 info.logical_path = some (env.calculate_hash info.local_path) →
      (upload_all env [info] false false none h0).success_count = 1 ∧
      (upload_all env [info] false false none h0).failed_count = 0 ∧
      (upload_all env [info] false false none h0).failed_files = [] ∧
      (upload_all env [info] false false none h0).uploads = []) := by
  refine ⟨?_, ?_, ?_, ?_, ?_⟩
  · intro h
    simp [process_one, h]
  · intro h
    simp [upload_single_file, h]
  · intro tok cache' calls hskip hE
    by_cases hup : upload_file env info.local_path info.file_name tok
    · simp [process_one, hskip, hE, hup]
    · simp [process_one, hskip, hE, hup]
  · intro tok cache' calls hE
    by_cases hup : upload_file env info.local_path info.file_name tok
    · simp [process_one, hE, hup]
    · simp [process_one, hE, hup]
  · intro h
    have hstep : process_one env false (init_state h0) info
        = { init_state h0 with success_count := (init_state h0).success_count + 1 } := by
      simp [process_one, init_state, h]
    simp [upload_all, truthy_override, upload_all_core, List.foldl, hstep]
    simp [init_state]

/-- Witness for C2: the spec scenario — `info_x` hashes to `d1` and the
history already maps its key to `d1`, so the run returns success 1 with
no uploads. -/
theorem C2_unchanged_files_skipped_witness :
    (upload_all env_match [info_x] false false none hist_d1).success_count = 1 ∧
    (upload_all env_match [info_x] false false none hist_d1).uploads = [] :=
  ⟨((C2_unchanged_files_skipped env_match (init_state hist_d1) info_x [] []
      hist_d1).2.2.2.2 (by decide)).1,
   ((C2_unchanged_files_skipped env_match (init_state hist_d1) info_x [] []
      hist_d1).2.2.2.2 (by decide)).2.2.2⟩

lemma upload_file_auth_none (env : Env) (h : env.auth_result = none)
    (fp fn tgt : String) : upload_file env fp fn tgt = false := by
  simp [upload_file, get_token, h]

lemma process_one_auth_none (env : Env) (h : env.auth_result = none)
    (force : Bool) (st : RunState) (info : FileInfo) :
    (process_one env force st info).history = st.history ∧
    (process_one env force st info).success_count
        + (process_one env force st info).failed_count
      = st.success_count + st.failed_count + 1 := by
  have hupf : ∀ fp fn tgt, upload_file env fp fn tgt = false :=
    fun fp fn tgt => upload_file_auth_none env h fp fn tgt
  by_cases hskip : force = false ∧
      aget st.history info.logical_path = some (env.calculate_hash info.local_path)
  · exact ⟨by simp [process_one, hskip], by simp [process_one, hskip]; omega⟩
  · rcases hE : ensure_path_exists env env.parent_node st.cache info.feishu_dir
      with ⟨tk, cache', calls⟩
    cases tk with
    | none =>
        exact ⟨by simp [process_one, hskip, hE],
          by simp [process_one, hskip, hE]; omega⟩
    | some tok =>
        exact ⟨by simp [process_one, hskip, hE, hupf],
          by simp [process_one, hskip, hE, hupf]; omega⟩

lemma upload_loop_auth_none (env : Env) (h : env.auth_result = none)
    (force : Bool) :
    ∀ (tasks : List FileInfo) (st : RunState),
      (tasks.foldl (process_one env force) st).history = st.history ∧
      (tasks.foldl (process_one env force) st).success_count
          + (tasks.foldl (process_one env force) st).failed_count
        = st.success_count + st.failed_count + tasks.length
  | [], st => by simp
  | info :: rest, st => by
      simp only [List.foldl_cons, List.length_cons]
      obtain ⟨h1a, h1b⟩ := process_one_auth_none env h force st info
      obtain ⟨h2a, h2b⟩ := upload_loop_auth_none env h force rest
        (process_one env force st info)
      exact ⟨h2a.trans h1a, by omega⟩

/-- C3 counterexample: with the token exchange failing (`auth_result =
none`), a serial run over two sibling tasks does not abort — both
transfers are attempted (each `upload_file` call catches the raised
authentication error and returns failure), and the authentication failure
is recorded as two ordinary per-task failures, contradicting the claim
that an authentication failure aborts the run before individual transfers
and is never recorded as a mere per-task failure while siblings
continue. -/
theorem C3_counterexample :
    (upload_all env_auth_fail [info_x, info_y] false false none []).failed_count = 2 ∧
    (upload_all env_auth_fail [info_x, info_y] false false none []).failed_files
      = [info_x, info_y] ∧
    (upload_all env_auth_fail [info_x, info_y] false false none []).success_count = 0 ∧
    (upload_all env_auth_fail [info_x, info_y] false false none []).uploads.length = 2 := by
  decide

/-- C3 (amended): when the token exchange returns a non-success response,
`_refresh_token` raises, but the exception is caught inside
`upload_file`'s blanket handler, so every attempted transfer merely
returns failure: the run is not aborted — every sibling task is still
processed (success and failure counts sum to the full task count), each
non-skipped task is recorded as a per-task failure, and the history is
never updated. -/
theorem C3_auth_failure_fails_tasks_individually (env : Env)
    (h : env.auth_result = none) (force : Bool) (tasks : List FileInfo)
    (st : RunState) (fp fn tgt : String) :
    upload_file env fp fn tgt = false ∧
    (tasks.foldl (process_one env force) st).history = st.history ∧
    (tasks.foldl (process_one env force) st).success_count
        + (tasks.foldl (process_one env force) st).failed_count
      = st.success_count + st.failed_count + tasks.length :=
  ⟨upload_file_auth_none env h fp fn tgt,
    (upload_loop_auth_none env h force tasks st).1,
    (upload_loop_auth_none env h force tasks st).2⟩

/-- Witness for C3 (amended) at the concrete failing-auth environment. -/
theorem C3_auth_failure_fails_tasks_individually_witness :
    upload_file env_auth_fail "/pub/A/00_Publish/x.docx" "x.docx" "t0" = false ∧
    ([info_x].foldl (process_one env_auth_fail false) (init_state [])).history
      = (init_state []).history :=
  ⟨(C3_auth_failure_fails_tasks_individually env_auth_fail rfl false [info_x]
      (init_state []) "/pub/A/00_Publish/x.docx" "x.docx" "t0").1,
   (C3_auth_failure_fails_tasks_individually env_auth_fail rfl false [info_x]
      (init_state []) "/pub/A/00_Publish/x.docx" "x.docx" "t0").2.1⟩

/-- C4 counterexample: in concurrent mode with a task list supplied by the
retry manifest (`files_override`), dry-run does not short-circuit — the
run performs folder-creation network calls and an upload, mutates the
in-memory history and persists the history file, because the source's
dry-run check sits inside the `else` branch of `if files_override:`. -/
theorem C4_counterexample :
    (upload_all_concurrent env_ok [] true false (some [info_x]) []).uploads
      = [("/pub/A/00_Publish/x.docx", "x.docx", "f_f_root_A_00_Publish")] ∧
    (upload_all_concurrent env_ok [] true false (some [info_x]) []).remote_calls
      = [.listCall "root" "A", .listCall "f_root_A" "00_Publish"] ∧
    (upload_all_concurrent env_ok [] true false (some [info_x]) []).saved_history
      = true ∧
    (upload_all_concurrent env_ok [] true false (some [info_x]) []).history
      = [("A/00_Publish/x.docx", "h2")] := by
  decide

/-- C4 (amended): dry-run short-circuits before the transferring phase on
the serial path for every task-list source (discovery, empty discovery,
or retry manifest), and on the concurrent path when the task list comes
from discovery: it returns `(taskCount, 0, [])` and performs no upload,
no folder-creation call, no history mutation and no history persistence.
Only the concurrent path with a manifest-supplied task list escapes the
short-circuit (see the counterexample). -/
theorem C4_dry_run_short_circuits (env : Env) (scanned : List FileInfo)
    (force : Bool) (ov : Option (List FileInfo)) (h0 : History) :
    ((upload_all env scanned true force ov h0).uploads = [] ∧
     (upload_all env scanned true force ov h0).remote_calls = [] ∧
     (upload_all env scanned true force ov h0).history = h0 ∧
     (upload_all env scanned true force ov h0).saved_history = false ∧
     (upload_all env scanned true force ov h0).failed_count = 0 ∧
     (upload_all env scanned true force ov h0).failed_files = [] ∧
     (upload_all env scanned true force ov h0).success_count
       = (upload_all env scanned true force ov h0).tasks.length) ∧
    ((upload_all_concurrent env scanned true force none h0).uploads = [] ∧
     (upload_all_concurrent env scanned true force none h0).remote_calls = [] ∧
     (upload_all_concurrent env scanned true force none h0).history = h0 ∧
     (upload_all_concurrent env scanned true force none h0).saved_history = false ∧
     (upload_all_concurrent env scanned true force none h0).failed_count = 0 ∧
     (upload_all_concurrent env scanned true force none h0).failed_files = [] ∧
     (upload_all_concurrent env scanned true force none h0).success_count
       = scanned.length) := by
  constructor
  · rcases hov : truthy_override ov with _ | files
    · cases hs : scanned.isEmpty <;>
        simp [upload_all, hov, hs, upload_all_core]
    · simp [upload_all, hov, upload_all_core]
  · simp [upload_all_concurrent, truthy_override]

lemma finish_run_false_spec (r : UploadResult) :
    (finish_run false r).run = r ∧
    ((finish_run false r).manifest_action = .written r.failed_files ↔
      0 < r.failed_count) ∧
    (r.failed_count = 0 → (finish_run false r).manifest_action = .removed) := by
  refine ⟨rfl, ?_, ?_⟩
  · by_cases hf : 0 < r.failed_count
    · simp [finish_run, hf]
    · simp [finish_run, hf]
  · intro h0f
    simp [finish_run, h0f]

lemma override_tasks_spec (env : Env) (scanned : List FileInfo)
    (dry_run force : Bool) (a : FileInfo) (l : List FileInfo) (h0 : History) :
    (upload_all env scanned dry_run force (some (a :: l)) h0).tasks = a :: l ∧
    (upload_all env scanned dry_run force (some (a :: l)) h0).scanned = false ∧
    (upload_all_concurrent env scanned dry_run force (some (a :: l)) h0).tasks
      = a :: l ∧
    (upload_all_concurrent env scanned dry_run force (some (a :: l)) h0).scanned
      = false := by
  refine ⟨?_, ?_, ?_, ?_⟩ <;> cases dry_run <;>
    simp [upload_all, upload_all_concurrent, truthy_override, upload_all_core,
      conc_core]

/-- C7 counterexample: a concurrent retry invocation under dry-run ends
with one failed task (the dry-run check is bypassed by the override path
and the transfer fails), yet the failure manifest is not written — `main`
skips the whole manifest block under `--dry-run` — contradicting "the
failure manifest file is written if and only if the run ends with at
least one failed task". -/
theorem C7_counterexample :
    (main_run env_auth_fail [] true false true true (some [info_x]) []).map
        (fun m => (m.run.failed_count, m.manifest_action))
      = some (1, ManifestAction.untouched) := by
  decide

/-- C7 (amended): for non-dry-run invocations the manifest file is
written if and only if the run ends with at least one failed task, and it
then contains exactly the failed tasks of that run; after a run with zero
failures any existing manifest file is deleted.  A retry invocation whose
manifest holds a non-empty task list re-attempts exactly those tasks with
no discovery phase invoked (an empty manifest list fails Python's
truthiness test and falls back to scanning).  Dry-run invocations leave
the manifest untouched even when the concurrent retry path produces
failures (see the counterexample). -/
theorem C7_manifest_written_iff_failures (env : Env) (scanned : List FileInfo)
    (force concurrent retry : Bool) (manifest_file : Option (List FileInfo))
    (h0 : History) (m : MainResult)
    (hm : main_run env scanned false force concurrent retry manifest_file h0
      = some m) :
    (m.manifest_action = .written m.run.failed_files ↔ 0 < m.run.failed_count) ∧
    (m.run.failed_count = 0 → m.manifest_action = .removed) ∧
    (∀ a l, retry = true → manifest_file = some (a :: l) →
      m.run.tasks = a :: l ∧ m.run.scanned = false) := by
  cases retry with
  | false =>
      cases concurrent with
      | false =>
          simp [main_run] at hm
          subst hm
          exact ⟨(finish_run_false_spec _).2.1, (finish_run_false_spec _).2.2,
            fun a l hr _ => absurd hr (by simp)⟩
      | true =>
          simp [main_run] at hm
          subst hm
          exact ⟨(finish_run_false_spec _).2.1, (finish_run_false_spec _).2.2,
            fun a l hr _ => absurd hr (by simp)⟩
  | true =>
      cases manifest_file with
      | none => simp [main_run] at hm
      | some files =>
          cases concurrent with
          | false =>
              simp [main_run] at hm
              subst hm
              refine ⟨(finish_run_false_spec _).2.1, (finish_run_false_spec _).2.2,
                ?_⟩
              intro a l _ hmf
              injection hmf with hmf2
              subst hmf2
              exact ⟨(override_tasks_spec env scanned false force a l h0).1,
                (override_tasks_spec env scanned false force a l h0).2.1⟩
          | true =>
              simp [main_run] at hm
              subst hm
              refine ⟨(finish_run_false_spec _).2.1, (finish_run_false_spec _).2.2,
                ?_⟩
              intro a l _ hmf
              injection hmf with hmf2
              subst hmf2
              exact ⟨(override_tasks_spec env scanned false force a l h0).2.2.1,
                (override_tasks_spec env scanned false force a l h0).2.2.2⟩

/-- Witness for C7 (amended): a concrete serial retry run of the 1-entry
manifest `[info_x]` against the healthy remote succeeds, deletes the
manifest, and the transfer phase received exactly the manifest's task
with no discovery. -/
theorem C7_manifest_written_iff_failures_witness :
    (m_w.manifest_action = .written m_w.run.failed_files ↔
      0 < m_w.run.failed_count) ∧
    m_w.run.tasks = [info_x] ∧ m_w.run.scanned = false := by
  have h := C7_manifest_written_iff_failures env_ok [] false false true
    (some [info_x]) [] m_w (by decide)
  exact ⟨h.1, (h.2.2 info_x [] rfl rfl).1, (h.2.2 info_x [] rfl rfl).2⟩

/-- C8 counterexample: both tasks are dispatched before the stop signal
and run to completion (their uploads are performed and their history
updates persist), but the stop is observed at the first iteration of the
result-collection loop, which `break`s — so the aggregated counts are
`(0, 0, [])` and the outcomes of the two dispatched tasks are *not*
recorded, contradicting the claim that outcomes of tasks dispatched
before cancellation are still recorded. -/
theorem C8_counterexample :
    (run_workers env_ok false stop_never [info_x, info_y] 0 [] []).results
      = [(info_x, true), (info_y, true)] ∧
    (run_workers env_ok false stop_never [info_x, info_y] 0 [] []).uploads.length
      = 2 ∧
    (run_workers env_ok false stop_never [info_x, info_y] 0 [] []).history
      = [("A/00_Publish/x.docx", "h2"), ("B/00_Publish/y.docx", "h2")] ∧
    run_agg stop_always
        (run_workers env_ok false stop_never [info_x, info_y] 0 [] []).results 1
        ⟨0, 0, []⟩
      = ⟨0, 0, []⟩ := by
  decide

/-- C8 (amended): once the stop signal is observed, no new task starts —
a worker that sees the stop flag at task start performs no hash, no
resolution, no upload and no history mutation; tasks already running
complete without forced abort and their effects persist.  However, the
outcomes of dispatched tasks are guaranteed to reach the aggregated
counts only when the stop signal is not observed by the collection loop:
with no stop during collection every outcome is recorded (counts sum to
the number of results), while a stop during collection discards the
remaining outcomes (see the counterexample). -/
theorem C8_no_new_task_after_stop (env : Env) (force : Bool) (hist : History)
    (cache : Cache) (info : FileInfo) (results : List (FileInfo × Bool))
    (stop_a : Nat → Bool) (i : Nat) (acc : AggResult) :
    upload_single_file env force true hist cache info = ⟨false, hist, cache, [], []⟩ ∧
    ((∀ j, stop_a j = false) →
      (run_agg stop_a results i acc).success_count
          + (run_agg stop_a results i acc).failed_count
        = acc.success_count + acc.failed_count + results.length) := by
  refine ⟨rfl, ?_⟩
  intro hs
  induction results generalizing i acc with
  | nil => simp [run_agg]
  | cons p rest ih =>
      obtain ⟨inf, ok⟩ := p
      rw [run_agg, hs i]
      cases ok with
      | true =>
          have h := ih (i + 1) ⟨acc.success_count + 1, acc.failed_count, acc.failed_files⟩
          simp only [List.length_cons]
          simp at h ⊢
          omega
      | false =>
          have h := ih (i + 1)
            ⟨acc.success_count, acc.failed_count + 1, acc.failed_files ++ [inf]⟩
          simp only [List.length_cons]
          simp at h ⊢
          omega

/-- Witness for C8 (amended): a stopped worker does nothing, and with no
stop during collection the single recorded outcome is counted. -/
theorem C8_no_new_task_after_stop_witness :
    upload_single_file env_ok false true [] [] info_x = ⟨false, [], [], [], []⟩ ∧
    (run_agg stop_never [(info_x, true)] 1 ⟨0, 0, []⟩).success_count
        + (run_agg stop_never [(info_x, true)] 1 ⟨0, 0, []⟩).failed_count
      = 0 + 0 + 1 :=
  ⟨(C8_no_new_task_after_stop env_ok false [] [] info_x [(info_x, true)]
      stop_never 1 ⟨0, 0, []⟩).1,
   (C8_no_new_task_after_stop env_ok false [] [] info_x [(info_x, true)]
      stop_never 1 ⟨0, 0, []⟩).2 (fun _ => rfl)⟩

lemma gocsf_hit (env : Env) (cache : Cache) (name parent tok : String)
    (h : aget cache (parent, name) = some tok) :
    get_or_create_single_folder env cache name parent = (tok, cache, []) := by
  simp [get_or_create_single_folder, h]

lemma gocsf_cached_of_success (env : Env) (cache : Cache) (name parent : String)
    (htok : (get_or_create_single_folder env cache name parent).1 ≠ "") :
    aget (get_or_create_single_folder env cache name parent).2.1 (parent, name)
      = some (get_or_create_single_folder env cache name parent).1 := by
  rcases hc : aget cache (parent, name) with _ | t
  · rcases hl : env.list_folder parent name with t' | _
    · simp [get_or_create_single_folder, hc, hl, aget_aset_self]
    · rcases hcr : env.create_folder parent name with t' | _
      · simp [get_or_create_single_folder, hc, hl, hcr, aget_aset_self]
      · simp [get_or_create_single_folder, hc, hl, hcr] at htok
  · simp [get_or_create_single_folder, hc]

lemma gocsf_monotone (env : Env) (cache : Cache) (name parent : String)
    (k : String × String) (v : String) (hk : aget cache k = some v) :
    aget (get_or_create_single_folder env cache name parent).2.1 k = some v := by
  rcases hc : aget cache (parent, name) with _ | t
  · have hkey : k ≠ (parent, name) := by
      intro he
      subst he
      rw [hk] at hc
      cases hc
    rcases hl : env.list_folder parent name with t' | _
    · simp [get_or_create_single_folder, hc, hl,
        aget_aset_ne cache (parent, name) k t' hkey, hk]
    · rcases hcr : env.create_folder parent name with t' | _
      · simp [get_or_create_single_folder, hc, hl, hcr,
          aget_aset_ne cache (parent, name) k t' hkey, hk]
      · simp [get_or_create_single_folder, hc, hl, hcr, hk]
  · simp [get_or_create_single_folder, hc, hk]

lemma ensure_go_monotone (env : Env) :
    ∀ (parts : List String) (parent : String) (cache : Cache)
      (k : String × String) (v : String),
      aget cache k = some v →
      aget (ensure_go env parts parent cache).2.1 k = some v
  | [], _, cache, k, v, h => by simpa [ensure_go] using h
  | part :: rest, parent, cache, k, v, h => by
      by_cases hp : part = ""
      · rw [ensure_go, if_pos hp]
        exact ensure_go_monotone env rest parent cache k v h
      · by_cases hr : (get_or_create_single_folder env cache part parent).1 = ""
        · simp only [ensure_go, if_neg hp, hr, if_true]
          exact gocsf_monotone env cache part parent k v h
        · simp only [ensure_go, if_neg hp, hr, if_false]
          exact ensure_go_monotone env rest _ _ k v
            (gocsf_monotone env cache part parent k v h)

lemma ensure_go_idem (env : Env) :
    ∀ (parts : List String) (parent : String) (cache : Cache) (tok : String),
      (ensure_go env parts parent cache).1 = some tok →
      ensure_go env parts parent (ensure_go env parts parent cache).2.1
        = (some tok, (ensure_go env parts parent cache).2.1, [])
  | [], parent, cache, tok, h => by
      simp [ensure_go] at h ⊢
      exact h
  | part :: rest, parent, cache, tok, h => by
      by_cases hp : part = ""
      · simp only [ensure_go, if_pos hp] at h ⊢
        exact ensure_go_idem env rest parent cache tok h
      · by_cases hg1 : (get_or_create_single_folder env cache part parent).1 = ""
        · simp [ensure_go, hp, hg1] at h
        · have hcached := gocsf_cached_of_success env cache part parent hg1
          have hmono := ensure_go_monotone env rest
            (get_or_create_single_folder env cache part parent).1
            (get_or_create_single_folder env cache part parent).2.1
            (parent, part) (get_or_create_single_folder env cache part parent).1
            hcached
          have hhit := gocsf_hit env
            (ensure_go env rest (get_or_create_single_folder env cache part parent).1
              (get_or_create_single_folder env cache part parent).2.1).2.1
            part parent (get_or_create_single_folder env cache part parent).1 hmono
          have hh : (ensure_go env rest
              (get_or_create_single_folder env cache part parent).1
              (get_or_create_single_folder env cache part parent).2.1).1 = some tok := by
            simpa [ensure_go, hp, hg1] using h
          have hih := ensure_go_idem env rest
            (get_or_create_single_folder env cache part parent).1
            (get_or_create_single_folder env cache part parent).2.1 tok hh
          simp only [ensure_go, if_neg hp, hg1, if_false]
          simp [hg1, hhit, hih]

/-- C6: folder resolution deduplicates within a run: once a `(parent,
name)` pair resolves successfully, its token is cached, and every later
resolution of that pair is a cache hit returning the same token with no
remote call; consequently a logical path that resolved successfully
resolves again to the same folder token, with the cache unchanged and
zero remote lookup/creation calls. -/
theorem C6_folder_resolution_memoized (env : Env) (cache : Cache)
    (name parent p rel tok : String) (cache' : Cache) (calls : List RemoteCall) :
    (get_or_create_single_folder env cache name parent = (tok, cache', calls) →
      tok ≠ "" →
      get_or_create_single_folder env cache' name parent = (tok, cache', [])) ∧
    (∀ tk c' cs, ensure_path_exists env p cache rel = (some tk, c', cs) →
      ensure_path_exists env p c' rel = (some tk, c', [])) := by
  constructor
  · intro hres htok
    have h1 : aget cache' (parent, name) = some tok := by
      have h2 := gocsf_cached_of_success env cache name parent (by rw [hres]; exact htok)
      rwa [hres] at h2
    exact gocsf_hit env cache' name parent tok h1
  · intro tk c' cs h
    by_cases hrel : rel = ""
    · subst hrel
      rw [ensure_path_exists, if_pos rfl] at h
      injection h with ha hb
      injection hb with hb1 hb2
      rw [ensure_path_exists, if_pos rfl, ha]
    · have h1 : (ensure_go env (split_slash rel) p cache).1 = some tk := by
        rw [ensure_path_exists, if_neg hrel] at h
        rw [h]
      have h2 : (ensure_go env (split_slash rel) p cache).2.1 = c' := by
        rw [ensure_path_exists, if_neg hrel] at h
        rw [h]
      have hid := ensure_go_idem env (split_slash rel) p cache tk h1
      rw [ensure_path_exists, if_neg hrel, ← h2]
      exact hid

/-- Witness for C6: after `A/00_Publish` resolves against the healthy
remote (two list calls, two cache entries), resolving it again from the
resulting cache returns the same token with no remote call. -/
theorem C6_folder_resolution_memoized_witness :
    ensure_path_exists env_ok "root"
        [(("root", "A"), "f_root_A"),
          (("f_root_A", "00_Publish"), "f_f_root_A_00_Publish")] "A/00_Publish"
      = (some "f_f_root_A_00_Publish",
          [(("root", "A"), "f_root_A"),
            (("f_root_A", "00_Publish"), "f_f_root_A_00_Publish")], []) :=
  (C6_folder_resolution_memoized env_ok [] "A" "root" "root" "A/00_Publish"
      "t" [] []).2 "f_f_root_A_00_Publish"
    [(("root", "A"), "f_root_A"),
      (("f_root_A", "00_Publish"), "f_f_root_A_00_Publish")]
    [.listCall "root" "A", .listCall "f_root_A" "00_Publish"] (by decide)

lemma ensure_go_filter (env : Env) :
    ∀ (parts : List String) (parent : String) (cache : Cache),
      ensure_go env parts parent cache
        = ensure_go env (parts.filter (fun s => !(s == ""))) parent cache
  | [], _, _ => rfl
  | part :: rest, parent, cache => by
      by_cases hp : part = ""
      · subst hp
        rw [ensure_go, if_pos rfl]
        simp only [List.filter_cons, beq_self_eq_true, Bool.not_true,
          Bool.false_eq_true, if_false]
        exact ensure_go_filter env rest parent cache
      · have hb : (part == "") = false := beq_eq_false_iff_ne.mpr hp
        simp only [List.filter_cons, hb, Bool.not_false, if_true]
        simp only [ensure_go, if_neg hp]
        simp only [ensure_go_filter env rest]

/-- C9: resolving the empty logical path returns the configured root
folder token unchanged with no remote call, and empty segments produced
by splitting are skipped: two non-empty logical paths whose `/`-splits
agree after removing empty segments (such as `A//B` or `A/B/` versus
`A/B`) resolve identically — same folder token, same cache, same remote
calls. -/
theorem C9_empty_segments_skipped (env : Env) (p : String) (cache : Cache)
    (rel rel' : String) :
    ensure_path_exists env p cache "" = (some p, cache, []) ∧
    (rel ≠ "" → rel' ≠ "" →
      (split_slash rel).filter (fun s => !(s == ""))
        = (split_slash rel').filter (fun s => !(s == "")) →
      ensure_path_exists env p cache rel = ensure_path_exists env p cache rel') := by
  refine ⟨by simp [ensure_path_exists], ?_⟩
  intro h1 h2 hf
  rw [ensure_path_exists, if_neg h1, ensure_path_exists, if_neg h2,
    ensure_go_filter env (split_slash rel), ensure_go_filter env (split_slash rel'),
    hf]

/-- Witness for C9: `A//B` and `A/B/` resolve exactly like `A/B`. -/
theorem C9_empty_segments_skipped_witness :
    ensure_path_exists env_ok "root" [] "A//B"
      = ensure_path_exists env_ok "root" [] "A/B" ∧
    ensure_path_exists env_ok "root" [] "A/B/"
      = ensure_path_exists env_ok "root" [] "A/B" :=
  ⟨(C9_empty_segments_skipped env_ok "root" [] "A//B" "A/B").2
      (by decide) (by decide) (by decide),
   (C9_empty_segments_skipped env_ok "root" [] "A/B/" "A/B").2
      (by decide) (by decide) (by decide)⟩

/-- C10: the folder cache stores only resolutions obtained from
successful remote responses: any entry present after a resolution step
was either already cached or is the `(parent, name)` key bound to the
token of a successful list or create response; and on the failure path
(listing finds no match and creation fails) the call returns `""` with
the cache unchanged and both remote calls issued — so a later resolution
of the same segment retries the remote lookup/creation instead of
returning a cached failure. -/
theorem C10_cache_stores_only_successes (env : Env) (cache : Cache)
    (name parent : String) :
    (env.list_folder parent name = .absent →
      env.create_folder parent name = .failed →
      aget cache (parent, name) = none →
      get_or_create_single_folder env cache name parent
        = ("", cache, [.listCall parent name, .createCall parent name])) ∧
    (∀ k v, aget (get_or_create_single_folder env cache name parent).2.1 k = some v →
      aget cache k = some v ∨
      (k = (parent, name) ∧
        (env.list_folder parent name = .found v ∨
          (env.list_folder parent name = .absent ∧
            env.create_folder parent name = .created v)))) := by
  constructor
  · intro hl hcr hc
    simp [get_or_create_single_folder, hc, hl, hcr]
  · intro k v hv
    rcases hc : aget cache (parent, name) with _ | t
    · by_cases hkey : k = (parent, name)
      · subst hkey
        rcases hl : env.list_folder parent name with t' | _
        · simp only [get_or_create_single_folder, hc, hl] at hv
          rw [aget_aset_self] at hv
          have ht : t' = v := by injection hv
          subst ht
          exact Or.inr ⟨rfl, Or.inl rfl⟩
        · rcases hcr : env.create_folder parent name with t' | _
          · simp only [get_or_create_single_folder, hc, hl, hcr] at hv
            rw [aget_aset_self] at hv
            have ht : t' = v := by injection hv
            subst ht
            exact Or.inr ⟨rfl, Or.inr ⟨rfl, rfl⟩⟩
          · simp [get_or_create_single_folder, hc, hl, hcr] at hv
      · rcases hl : env.list_folder parent name with t' | _
        · simp only [get_or_create_single_folder, hc, hl] at hv
          rw [aget_aset_ne cache (parent, name) k t' hkey] at hv
          exact Or.inl hv
        · rcases hcr : env.create_folder parent name with t' | _
          · simp only [get_or_create_single_folder, hc, hl, hcr] at hv
            rw [aget_aset_ne cache (parent, name) k t' hkey] at hv
            exact Or.inl hv
          · simp only [get_or_create_single_folder, hc, hl, hcr] at hv
            exact Or.inl hv
    · simp only [get_or_create_single_folder, hc] at hv
      exact Or.inl hv

/-- Witness for C10: with listing absent and creation failing, resolving
`A` under the root caches nothing, returns the failure token `""`, and a
repeat call issues the remote calls again. -/
theorem C10_cache_stores_only_successes_witness :
    get_or_create_single_folder env_folder_fail [] "A" "root"
      = ("", [], [.listCall "root" "A", .createCall "root" "A"]) :=
  (C10_cache_stores_only_successes env_folder_fail [] "A" "root").1 rfl rfl rfl

end Feishu
